import Mathlib

/-! # The version-polymorphic disk view of the GCE persistent-disk CSI driver

A shallow embedding of `pkg/gce-cloud-provider/compute/cloud-disk.go` and of
the metric-parameter derivation exercised by `pkg/metrics/metrics_test.go`.

Conventions of the embedding:

* A Go `string` is a Lean `String` (a sequence of Unicode scalar values), i.e.
  the Go strings that are valid UTF-8.  Because `/` is a one-byte code point
  and UTF-8 is self-synchronising, splitting such a string on the byte string
  `"/"` and splitting its character sequence on the character `/` agree.
* A Go pointer `*T` is an `Option T`; `nil` is `none`.
* A Go function that can panic returns `Except GoPanic _`.
* `int64` is `Int`; no arithmetic is done on sizes, so no wrap-around occurs.
* A Go slice `[]string` is a `List String`; the `nil` slice is `[]`.
* The in-place update of `setSizeGb` is explicit state passing: the function
  returns the view as it is after the call.
-/

/-- Run-time panics of the Go program that are visible in the embedding. -/
inductive GoPanic where
  | nilPointerDereference
  | indexOutOfRange
  deriving DecidableEq, Repr

deriving instance DecidableEq for Except

/-! ## Go standard library: `unicode` and `strings` -/

namespace unicode

/-- Go `unicode.IsSpace`: the Unicode `White_Space` property.  In Latin-1 the
spaces are `\t \n \v \f \r`, space, U+0085 and U+00A0; above Latin-1 they are
the code points of the `White_Space` range table. -/
def IsSpace (r : Char) : Bool :=
  let n := r.toNat
  (0x09 ≤ n && n ≤ 0x0D) || n == 0x20 || n == 0x85 || n == 0xA0 ||
  n == 0x1680 || (0x2000 ≤ n && n ≤ 0x200A) || n == 0x2028 || n == 0x2029 ||
  n == 0x202F || n == 0x205F || n == 0x3000

end unicode

namespace strings

/-- Left-to-right scan behind `strings.Split` for a non-empty separator: the
segments of the input between successive non-overlapping occurrences of `sep`.
The counter is the number of characters of the occurrence just matched that
are still to be skipped. -/
def splitChars (sep : List Char) : List Char → Nat → List (List Char)
  | [], _ => [[]]
  | _ :: cs, skip + 1 => splitChars sep cs skip
  | c :: cs, 0 =>
    if sep.isPrefixOf (c :: cs) then
      [] :: splitChars sep cs (sep.length - 1)
    else
      match splitChars sep cs 0 with
      | [] => [[c]]
      | seg :: rest => (c :: seg) :: rest

/-- Go `strings.Split(s, sep)`: all substrings of `s` separated by `sep`.
With an empty `sep` the string is exploded into its characters (and the empty
string into the empty slice). -/
def Split (s sep : String) : List String :=
  if sep.data = [] then s.data.map (fun c => String.mk [c])
  else (splitChars sep.data s.data 0).map String.mk

/-- Go `strings.TrimSpace(s)`: `s` without its leading and trailing white
space, as defined by Unicode. -/
def TrimSpace (s : String) : String :=
  String.mk ((s.data.dropWhile unicode.IsSpace).rdropWhile unicode.IsSpace)

end strings

/-- Go `strconv.FormatBool`. -/
def FormatBool (b : Bool) : String :=
  if b then "true" else "false"

/-! ## The three revisions of the disk record -/

/-- Modelled from the spec: `meta.KeyType` of k8s-cloud-provider, whose
declaration is outside the sources; the three location kinds returned by
`LocationType`. -/
inductive KeyType where
  | Zonal
  | Regional
  | Global
  deriving DecidableEq, Repr

namespace computev1

/-- Modelled from the spec: the encryption-key reference of the stable compute
API (declared outside the sources); only `KmsKeyName` is read. -/
structure CustomerEncryptionKey where
  KmsKeyName : String := ""
  deriving DecidableEq, Repr

/-- Modelled from the spec: the stable-revision disk record (declared in the
external compute API), with the fields section 3 of the specification lists and
the source reads.  The field `Type_` is Go's `Type`.  Defaults are Go's zero
values. -/
structure Disk where
  Name : String := ""
  Kind : String := ""
  Status : String := ""
  Type_ : String := ""
  SelfLink : String := ""
  SizeGb : Int := 0
  Zone : String := ""
  Region : String := ""
  Users : List String := []
  SourceSnapshotId : String := ""
  SourceDiskId : String := ""
  SourceImageId : String := ""
  DiskEncryptionKey : Option CustomerEncryptionKey := none
  deriving DecidableEq, Repr

end computev1

namespace computebeta

/-- Modelled from the spec: the encryption-key reference of the beta compute
API (declared outside the sources); only `KmsKeyName` is read. -/
structure CustomerEncryptionKey where
  KmsKeyName : String := ""
  deriving DecidableEq, Repr

/-- Modelled from the spec: the beta-revision disk record (declared in the
external compute API): the stable fields plus the multi-writer and
confidential-compute flags. -/
structure Disk where
  Name : String := ""
  Kind : String := ""
  Status : String := ""
  Type_ : String := ""
  SelfLink : String := ""
  SizeGb : Int := 0
  Zone : String := ""
  Region : String := ""
  Users : List String := []
  SourceSnapshotId : String := ""
  SourceDiskId : String := ""
  SourceImageId : String := ""
  DiskEncryptionKey : Option CustomerEncryptionKey := none
  MultiWriter : Bool := false
  EnableConfidentialCompute : Bool := false
  deriving DecidableEq, Repr

end computebeta

namespace computealpha

/-- Modelled from the spec: the encryption-key reference of the alpha compute
API (declared outside the sources); only `KmsKeyName` is read. -/
structure CustomerEncryptionKey where
  KmsKeyName : String := ""
  deriving DecidableEq, Repr

/-- Modelled from the spec: the alpha-revision disk record (declared in the
external compute API): the beta fields plus the storage-pool reference. -/
structure Disk where
  Name : String := ""
  Kind : String := ""
  Status : String := ""
  Type_ : String := ""
  SelfLink : String := ""
  SizeGb : Int := 0
  Zone : String := ""
  Region : String := ""
  Users : List String := []
  SourceSnapshotId : String := ""
  SourceDiskId : String := ""
  SourceImageId : String := ""
  DiskEncryptionKey : Option CustomerEncryptionKey := none
  MultiWriter : Bool := false
  EnableConfidentialCompute : Bool := false
  StoragePool : String := ""
  deriving DecidableEq, Repr

end computealpha

/-! ## `CloudDisk` and its constructors -/

/-- Go `type CloudDisk struct`: three pointer slots, one per revision. -/
structure CloudDisk where
  disk : Option computev1.Disk := none
  betaDisk : Option computebeta.Disk := none
  alphaDisk : Option computealpha.Disk := none
  deriving DecidableEq, Repr

/-- Go `CloudDiskFromV1`: a fresh view whose stable slot is the argument. -/
def CloudDiskFromV1 (disk : Option computev1.Disk) : Option CloudDisk :=
  some { disk := disk }

/-- Go `CloudDiskFromBeta`: a fresh view whose beta slot is the argument. -/
def CloudDiskFromBeta (disk : Option computebeta.Disk) : Option CloudDisk :=
  some { betaDisk := disk }

/-- Go `CloudDiskFromAlpha`: a fresh view whose alpha slot is the argument. -/
def CloudDiskFromAlpha (disk : Option computealpha.Disk) : Option CloudDisk :=
  some { alphaDisk := disk }

/-! ## Accessors

Each accessor has the pointer receiver `d *CloudDisk`; its first action is to
read a field of `d`, which panics when `d` is `nil`.  The Go `switch` with the
cases `d.disk != nil`, `d.betaDisk != nil`, `d.alphaDisk != nil`, `default` is
the first-match pattern match on the three slots. -/

namespace CloudDisk

/-- Go `(*CloudDisk).LocationType`. -/
def LocationType : Option CloudDisk → Except GoPanic KeyType
  | none => .error .nilPointerDereference
  | some d =>
    let zr : String × String :=
      match d.disk, d.betaDisk, d.alphaDisk with
      | some disk, _, _ => (disk.Zone, disk.Region)
      | none, some betaDisk, _ => (betaDisk.Zone, betaDisk.Region)
      | none, none, some alphaDisk => (alphaDisk.Zone, alphaDisk.Region)
      | none, none, none => ("", "")
    if zr.1 ≠ "" then .ok .Zonal
    else if zr.2 ≠ "" then .ok .Regional
    else .ok .Global

/-- Go `(*CloudDisk).GetUsers`. -/
def GetUsers : Option CloudDisk → Except GoPanic (List String)
  | none => .error .nilPointerDereference
  | some d =>
    match d.disk, d.betaDisk, d.alphaDisk with
    | some disk, _, _ => .ok disk.Users
    | none, some betaDisk, _ => .ok betaDisk.Users
    | none, none, some alphaDisk => .ok alphaDisk.Users
    | none, none, none => .ok []

/-- Go `(*CloudDisk).GetName`. -/
def GetName : Option CloudDisk → Except GoPanic String
  | none => .error .nilPointerDereference
  | some d =>
    match d.disk, d.betaDisk, d.alphaDisk with
    | some disk, _, _ => .ok disk.Name
    | none, some betaDisk, _ => .ok betaDisk.Name
    | none, none, some alphaDisk => .ok alphaDisk.Name
    | none, none, none => .ok ""

/-- Go `(*CloudDisk).GetKind`. -/
def GetKind : Option CloudDisk → Except GoPanic String
  | none => .error .nilPointerDereference
  | some d =>
    match d.disk, d.betaDisk, d.alphaDisk with
    | some disk, _, _ => .ok disk.Kind
    | none, some betaDisk, _ => .ok betaDisk.Kind
    | none, none, some alphaDisk => .ok alphaDisk.Kind
    | none, none, none => .ok ""

/-- Go `(*CloudDisk).GetStatus`. -/
def GetStatus : Option CloudDisk → Except GoPanic String
  | none => .error .nilPointerDereference
  | some d =>
    match d.disk, d.betaDisk, d.alphaDisk with
    | some disk, _, _ => .ok disk.Status
    | none, some betaDisk, _ => .ok betaDisk.Status
    | none, none, some alphaDisk => .ok alphaDisk.Status
    | none, none, none => .ok "Unknown"

/-- The last two statements of `GetPDType`:
`respType := strings.Split(pdType, "/")` and
`return strings.TrimSpace(respType[len(respType)-1])`.
The index expression panics when it is out of range; for the empty slice Go's
index is `-1`, here the truncated `0`, out of range on the empty list as well. -/
def lastSegment (pdType : String) : Except GoPanic String :=
  let respType := strings.Split pdType "/"
  match respType[respType.length - 1]? with
  | some seg => .ok (strings.TrimSpace seg)
  | none => .error .indexOutOfRange

/-- Go `(*CloudDisk).GetPDType`. -/
def GetPDType : Option CloudDisk → Except GoPanic String
  | none => .error .nilPointerDereference
  | some d =>
    match d.disk, d.betaDisk, d.alphaDisk with
    | some disk, _, _ => lastSegment disk.Type_
    | none, some betaDisk, _ => lastSegment betaDisk.Type_
    | none, none, some alphaDisk => lastSegment alphaDisk.Type_
    | none, none, none => .ok ""

/-- Go `(*CloudDisk).GetSelfLink`. -/
def GetSelfLink : Option CloudDisk → Except GoPanic String
  | none => .error .nilPointerDereference
  | some d =>
    match d.disk, d.betaDisk, d.alphaDisk with
    | some disk, _, _ => .ok disk.SelfLink
    | none, some betaDisk, _ => .ok betaDisk.SelfLink
    | none, none, some alphaDisk => .ok alphaDisk.SelfLink
    | none, none, none => .ok ""

/-- Go `(*CloudDisk).GetSizeGb`. -/
def GetSizeGb : Option CloudDisk → Except GoPanic Int
  | none => .error .nilPointerDereference
  | some d =>
    match d.disk, d.betaDisk, d.alphaDisk with
    | some disk, _, _ => .ok disk.SizeGb
    | none, some betaDisk, _ => .ok betaDisk.SizeGb
    | none, none, some alphaDisk => .ok alphaDisk.SizeGb
    | none, none, none => .ok (-1)

/-- Go `(*CloudDisk).setSizeGb`: writes the size into the record of the first
populated slot; the result is the view after the call. -/
def setSizeGb : Option CloudDisk → Int → Except GoPanic (Option CloudDisk)
  | none, _ => .error .nilPointerDereference
  | some d, size =>
    match d.disk, d.betaDisk, d.alphaDisk with
    | some disk, _, _ => .ok (some { d with disk := some { disk with SizeGb := size } })
    | none, some betaDisk, _ =>
      .ok (some { d with betaDisk := some { betaDisk with SizeGb := size } })
    | none, none, some alphaDisk =>
      .ok (some { d with alphaDisk := some { alphaDisk with SizeGb := size } })
    | none, none, none => .ok (some d)

/-- Go `(*CloudDisk).GetZone`. -/
def GetZone : Option CloudDisk → Except GoPanic String
  | none => .error .nilPointerDereference
  | some d =>
    match d.disk, d.betaDisk, d.alphaDisk with
    | some disk, _, _ => .ok disk.Zone
    | none, some betaDisk, _ => .ok betaDisk.Zone
    | none, none, some alphaDisk => .ok alphaDisk.Zone
    | none, none, none => .ok ""

/-- Go `(*CloudDisk).GetSnapshotId`. -/
def GetSnapshotId : Option CloudDisk → Except GoPanic String
  | none => .error .nilPointerDereference
  | some d =>
    match d.disk, d.betaDisk, d.alphaDisk with
    | some disk, _, _ => .ok disk.SourceSnapshotId
    | none, some betaDisk, _ => .ok betaDisk.SourceSnapshotId
    | none, none, some alphaDisk => .ok alphaDisk.SourceSnapshotId
    | none, none, none => .ok ""

/-- Go `(*CloudDisk).GetSourceDiskId`. -/
def GetSourceDiskId : Option CloudDisk → Except GoPanic String
  | none => .error .nilPointerDereference
  | some d =>
    match d.disk, d.betaDisk, d.alphaDisk with
    | some disk, _, _ => .ok disk.SourceDiskId
    | none, some betaDisk, _ => .ok betaDisk.SourceDiskId
    | none, none, some alphaDisk => .ok alphaDisk.SourceDiskId
    | none, none, none => .ok ""

/-- Go `(*CloudDisk).GetImageId`. -/
def GetImageId : Option CloudDisk → Except GoPanic String
  | none => .error .nilPointerDereference
  | some d =>
    match d.disk, d.betaDisk, d.alphaDisk with
    | some disk, _, _ => .ok disk.SourceImageId
    | none, some betaDisk, _ => .ok betaDisk.SourceImageId
    | none, none, some alphaDisk => .ok alphaDisk.SourceImageId
    | none, none, none => .ok ""

/-- Go `(*CloudDisk).GetKMSKeyName`: inside the case of the first populated
slot the key name is returned when the record has an encryption key; every
other path falls out of the `switch` to `return ""`. -/
def GetKMSKeyName : Option CloudDisk → Except GoPanic String
  | none => .error .nilPointerDereference
  | some d =>
    match d.disk, d.betaDisk, d.alphaDisk with
    | some disk, _, _ =>
      match disk.DiskEncryptionKey with
      | some dek => .ok dek.KmsKeyName
      | none => .ok ""
    | none, some betaDisk, _ =>
      match betaDisk.DiskEncryptionKey with
      | some dek => .ok dek.KmsKeyName
      | none => .ok ""
    | none, none, some alphaDisk =>
      match alphaDisk.DiskEncryptionKey with
      | some dek => .ok dek.KmsKeyName
      | none => .ok ""
    | none, none, none => .ok ""

/-- Go `(*CloudDisk).GetMultiWriter`. -/
def GetMultiWriter : Option CloudDisk → Except GoPanic Bool
  | none => .error .nilPointerDereference
  | some d =>
    match d.disk, d.betaDisk, d.alphaDisk with
    | some _, _, _ => .ok false
    | none, some betaDisk, _ => .ok betaDisk.MultiWriter
    | none, none, some alphaDisk => .ok alphaDisk.MultiWriter
    | none, none, none => .ok false

/-- Go `(*CloudDisk).GetEnableConfidentialCompute`. -/
def GetEnableConfidentialCompute : Option CloudDisk → Except GoPanic Bool
  | none => .error .nilPointerDereference
  | some d =>
    match d.disk, d.betaDisk, d.alphaDisk with
    | some _, _, _ => .ok false
    | none, some betaDisk, _ => .ok betaDisk.EnableConfidentialCompute
    | none, none, some alphaDisk => .ok alphaDisk.EnableConfidentialCompute
    | none, none, none => .ok false

/-- Go `(*CloudDisk).GetEnableStoragePools`. -/
def GetEnableStoragePools : Option CloudDisk → Except GoPanic Bool
  | none => .error .nilPointerDereference
  | some d =>
    match d.disk, d.betaDisk, d.alphaDisk with
    | some _, _, _ => .ok false
    | none, some _, _ => .ok false
    | none, none, some alphaDisk => .ok (alphaDisk.StoragePool != "")
    | none, none, none => .ok false

end CloudDisk

/-! ## Metric parameters (`pkg/metrics`) -/

/-- Modelled from the spec: the constant `DefaultEnableConfidentialCompute` of
`pkg/metrics`, declared in a file that is not among the sources; section 4.2
of the specification gives the default confidential-compute flag as
`"false"`. -/
def DefaultEnableConfidentialCompute : String := "false"

/-- Modelled from the spec: the constant `DefaultEnableStoragePools` of
`pkg/metrics`, declared in a file that is not among the sources; section 4.2
of the specification gives the default storage-pools flag as `"false"`. -/
def DefaultEnableStoragePools : String := "false"

/-- Modelled from the spec: `GetMetricParameters` of `pkg/metrics` (the
specification's `DeriveMetricParameters`), whose body is not among the sources;
only its test is.  Section 4.2: for an absent view the three default strings;
otherwise the disk type is `PDType()` and the two flags are the string forms
of `EnableConfidentialCompute()` and `EnableStoragePools()`.  The literal of
the default disk type is given neither by the specification nor by the test,
so it is the first argument. -/
def GetMetricParameters (DefaultDiskTypeForMetric : String) :
    Option CloudDisk → Except GoPanic (String × String × String)
  | none =>
    .ok (DefaultDiskTypeForMetric, DefaultEnableConfidentialCompute, DefaultEnableStoragePools)
  | some d =>
    match CloudDisk.GetPDType (some d), CloudDisk.GetEnableConfidentialCompute (some d),
      CloudDisk.GetEnableStoragePools (some d) with
    | .ok diskType, .ok cc, .ok sp => .ok (diskType, FormatBool cc, FormatBool sp)
    | .error e, _, _ => .error e
    | _, .error e, _ => .error e
    | _, _, .error e => .error e

/-! ## Observing a view

Auxiliary definitions for stating properties of all accessors at once, of
repeated `setSizeGb` calls, and of the dispatch order. -/

/-- The results of the sixteen accessors on one view, in source order. -/
structure Readings where
  locationType : Except GoPanic KeyType
  users : Except GoPanic (List String)
  name : Except GoPanic String
  kind : Except GoPanic String
  status : Except GoPanic String
  pdType : Except GoPanic String
  selfLink : Except GoPanic String
  sizeGb : Except GoPanic Int
  zone : Except GoPanic String
  snapshotId : Except GoPanic String
  sourceDiskId : Except GoPanic String
  imageId : Except GoPanic String
  kmsKeyName : Except GoPanic String
  multiWriter : Except GoPanic Bool
  enableConfidentialCompute : Except GoPanic Bool
  enableStoragePools : Except GoPanic Bool
  deriving DecidableEq

namespace CloudDisk

/-- Every accessor of the source called on the same view. -/
def readings (d : Option CloudDisk) : Readings where
  locationType := LocationType d
  users := GetUsers d
  name := GetName d
  kind := GetKind d
  status := GetStatus d
  pdType := GetPDType d
  selfLink := GetSelfLink d
  sizeGb := GetSizeGb d
  zone := GetZone d
  snapshotId := GetSnapshotId d
  sourceDiskId := GetSourceDiskId d
  imageId := GetImageId d
  kmsKeyName := GetKMSKeyName d
  multiWriter := GetMultiWriter d
  enableConfidentialCompute := GetEnableConfidentialCompute d
  enableStoragePools := GetEnableStoragePools d

/-- The number of populated (non-nil) slots of a view. -/
def populated (d : CloudDisk) : Nat :=
  (if d.disk.isSome then 1 else 0) + (if d.betaDisk.isSome then 1 else 0) +
    (if d.alphaDisk.isSome then 1 else 0)

/-- A sequence of `setSizeGb` calls on the same view, one per size of the list,
in order; the result is the view after the last call. -/
def setSizeGbAll : Option CloudDisk → List Int → Except GoPanic (Option CloudDisk)
  | d, [] => .ok d
  | d, size :: sizes =>
    match setSizeGb d size with
    | .ok d1 => setSizeGbAll d1 sizes
    | .error e => .error e

end CloudDisk

/-- The three slots of a `CloudDisk`. -/
inductive Slot where
  | stable
  | beta
  | alpha
  deriving DecidableEq, Repr

namespace CloudDisk

/-- Whether the given slot of the view is populated. -/
def slotPopulated (d : CloudDisk) : Slot → Bool
  | .stable => d.disk.isSome
  | .beta => d.betaDisk.isSome
  | .alpha => d.alphaDisk.isSome

/-- The view that keeps only the given slot of `d`. -/
def isolate (d : CloudDisk) : Slot → CloudDisk
  | .stable => { disk := d.disk }
  | .beta => { betaDisk := d.betaDisk }
  | .alpha => { alphaDisk := d.alphaDisk }

/-- The accessors as they would be with the `switch` cases tested in the given
order: the first slot of `order` that is populated is the one read, each
accessor returning for it what the source accessor returns for that record; if
none of them is populated the `default` results are returned. -/
def readingsInOrder (order : List Slot) (d : CloudDisk) : Readings :=
  match order.find? d.slotPopulated with
  | some s => readings (some (d.isolate s))
  | none => readings (some {})

end CloudDisk

/-! ## The view as a closed sum type

The design of section 9 of the specification, with the accessor rules
of section 4.1. -/

/-- The view as a tagged variant: one case per revision, and the degenerate
case of a view without a record. -/
inductive DiskView where
  | stable (r : computev1.Disk)
  | beta (r : computebeta.Disk)
  | alpha (r : computealpha.Disk)
  | empty
  deriving DecidableEq, Repr

namespace DiskView

/-- Section 4.1, LocationType: `Zonal` if the zone is non-empty, else
`Regional` if the region is non-empty, else `Global`. -/
def locationOf (zone region : String) : KeyType :=
  if zone ≠ "" then .Zonal else if region ≠ "" then .Regional else .Global

/-- Section 4.1, PDType: split the type reference on `/`, trim white space
from the final segment, and return that segment. -/
def pdTypeOf (typeRef : String) : String :=
  strings.TrimSpace ((strings.Split typeRef "/").getLast?.getD "")

/-- Section 4.1, KMSKeyName: the key's name if an encryption-key reference is
present, else the empty string. -/
def kmsOf (name : Option String) : String :=
  name.getD ""

/-- The accessor set of section 4.1 by exhaustive case analysis on the
variant; every read succeeds. -/
def readings : DiskView → Readings
  | .stable r =>
    { locationType := .ok (locationOf r.Zone r.Region)
      users := .ok r.Users
      name := .ok r.Name
      kind := .ok r.Kind
      status := .ok r.Status
      pdType := .ok (pdTypeOf r.Type_)
      selfLink := .ok r.SelfLink
      sizeGb := .ok r.SizeGb
      zone := .ok r.Zone
      snapshotId := .ok r.SourceSnapshotId
      sourceDiskId := .ok r.SourceDiskId
      imageId := .ok r.SourceImageId
      kmsKeyName := .ok (kmsOf (r.DiskEncryptionKey.map (fun k => k.KmsKeyName)))
      multiWriter := .ok false
      enableConfidentialCompute := .ok false
      enableStoragePools := .ok false }
  | .beta r =>
    { locationType := .ok (locationOf r.Zone r.Region)
      users := .ok r.Users
      name := .ok r.Name
      kind := .ok r.Kind
      status := .ok r.Status
      pdType := .ok (pdTypeOf r.Type_)
      selfLink := .ok r.SelfLink
      sizeGb := .ok r.SizeGb
      zone := .ok r.Zone
      snapshotId := .ok r.SourceSnapshotId
      sourceDiskId := .ok r.SourceDiskId
      imageId := .ok r.SourceImageId
      kmsKeyName := .ok (kmsOf (r.DiskEncryptionKey.map (fun k => k.KmsKeyName)))
      multiWriter := .ok r.MultiWriter
      enableConfidentialCompute := .ok r.EnableConfidentialCompute
      enableStoragePools := .ok false }
  | .alpha r =>
    { locationType := .ok (locationOf r.Zone r.Region)
      users := .ok r.Users
      name := .ok r.Name
      kind := .ok r.Kind
      status := .ok r.Status
      pdType := .ok (pdTypeOf r.Type_)
      selfLink := .ok r.SelfLink
      sizeGb := .ok r.SizeGb
      zone := .ok r.Zone
      snapshotId := .ok r.SourceSnapshotId
      sourceDiskId := .ok r.SourceDiskId
      imageId := .ok r.SourceImageId
      kmsKeyName := .ok (kmsOf (r.DiskEncryptionKey.map (fun k => k.KmsKeyName)))
      multiWriter := .ok r.MultiWriter
      enableConfidentialCompute := .ok r.EnableConfidentialCompute
      enableStoragePools := .ok (decide (r.StoragePool ≠ "")) }
  | .empty =>
    { locationType := .ok .Global
      users := .ok []
      name := .ok ""
      kind := .ok ""
      status := .ok "Unknown"
      pdType := .ok ""
      selfLink := .ok ""
      sizeGb := .ok (-1)
      zone := .ok ""
      snapshotId := .ok ""
      sourceDiskId := .ok ""
      imageId := .ok ""
      kmsKeyName := .ok ""
      multiWriter := .ok false
      enableConfidentialCompute := .ok false
      enableStoragePools := .ok false }

/-- The variant that a three-slot view stands for: the case of its populated
slot, `empty` without one. -/
def ofCloudDisk (d : CloudDisk) : DiskView :=
  match d.disk, d.betaDisk, d.alphaDisk with
  | some r, _, _ => .stable r
  | none, some r, _ => .beta r
  | none, none, some r => .alpha r
  | none, none, none => .empty

/-- The three-slot view of a variant: what the constructor of its revision
builds. -/
def toCloudDisk : DiskView → CloudDisk
  | .stable r => { disk := some r }
  | .beta r => { betaDisk := some r }
  | .alpha r => { alphaDisk := some r }
  | .empty => {}

end DiskView

/-! ## Lemmas on the string functions -/

namespace strings

theorem splitChars_ne_nil (sep : List Char) :
    ∀ (s : List Char) (k : Nat), splitChars sep s k ≠ []
  | [], _ => by simp [splitChars]
  | _ :: cs, k + 1 => by simpa [splitChars] using splitChars_ne_nil sep cs k
  | c :: cs, 0 => by
    unfold splitChars
    split
    · simp
    · split <;> simp

/-- One step of the scan for the separator `/`. -/
theorem splitChars_slash_cons (c : Char) (cs : List Char) :
    splitChars ['/'] (c :: cs) 0 =
      if c = '/' then [] :: splitChars ['/'] cs 0
      else match splitChars ['/'] cs 0 with
        | [] => [[c]]
        | seg :: rest => (c :: seg) :: rest := by
  by_cases hc : c = '/'
  · subst hc
    simp [splitChars, List.isPrefixOf]
  · have hc2 : ¬ ('/' = c) := fun e => hc e.symm
    simp [splitChars, List.isPrefixOf, hc, hc2]

/-- A string without `/` is its own single segment. -/
theorem splitChars_slash_of_not_mem :
    ∀ x : List Char, '/' ∉ x → splitChars ['/'] x 0 = [x]
  | [], _ => by simp [splitChars]
  | c :: cs, h => by
    have hc : ¬ (c = '/') := fun e => h (by simp [e])
    have hcs : '/' ∉ cs := fun e => h (List.mem_cons_of_mem _ e)
    rw [splitChars_slash_cons, if_neg hc, splitChars_slash_of_not_mem cs hcs]

/-- The segments of `p ++ "/" ++ x` end with `x` when `x` has no `/`, and
there is at least one segment before it. -/
theorem splitChars_slash_append (x : List Char) (hx : '/' ∉ x) :
    ∀ p : List Char, ∃ a l, splitChars ['/'] (p ++ '/' :: x) 0 = a :: (l ++ [x])
  | [] => ⟨[], [], by
      rw [List.nil_append, splitChars_slash_cons, if_pos rfl,
        splitChars_slash_of_not_mem x hx]; rfl⟩
  | c :: cs => by
    obtain ⟨a, l, ih⟩ := splitChars_slash_append x hx cs
    by_cases hc : c = '/'
    · exact ⟨[], a :: l, by rw [List.cons_append, splitChars_slash_cons, if_pos hc, ih]; rfl⟩
    · exact ⟨c :: a, l, by rw [List.cons_append, splitChars_slash_cons, if_neg hc, ih]⟩

/-- The last segment of `p ++ "/" ++ x` is `x` when `x` has no `/`. -/
theorem getLast?_splitChars_slash_append (x : List Char) (hx : '/' ∉ x) (p : List Char) :
    (splitChars ['/'] (p ++ '/' :: x) 0).getLast? = some x := by
  obtain ⟨a, l, h⟩ := splitChars_slash_append x hx p
  rw [h, ← List.cons_append, List.getLast?_append]
  simp

/-- A string that neither starts nor ends with white space is left as it is by
`TrimSpace`. -/
theorem TrimSpace_eq_self (X : String)
    (hhead : ∀ c, X.data.head? = some c → unicode.IsSpace c = false)
    (hlast : ∀ c, X.data.getLast? = some c → unicode.IsSpace c = false) :
    TrimSpace X = X := by
  have h1 : X.data.dropWhile unicode.IsSpace = X.data := by
    cases hd : X.data with
    | nil => rfl
    | cons c cs =>
      have := hhead c (by simp [hd])
      simp [List.dropWhile, this]
  have h2 : X.data.rdropWhile unicode.IsSpace = X.data := by
    rw [List.rdropWhile_eq_self_iff]
    intro hl
    have := hlast (X.data.getLast hl) (List.getLast?_eq_getLast _ hl)
    simp [this]
  unfold TrimSpace
  rw [h1, h2]

end strings

namespace CloudDisk

/-- The `GetPDType` tail returns the trimmed last segment of the split. -/
theorem lastSegment_of_getLast? (t : String) (seg : List Char)
    (h : (strings.splitChars ['/'] t.data 0).getLast? = some seg) :
    lastSegment t = .ok (strings.TrimSpace (String.mk seg)) := by
  have hS : strings.Split t "/" = (strings.splitChars ['/'] t.data 0).map String.mk := by
    simp [strings.Split]
  unfold lastSegment
  simp only [hS, ← List.getLast?_eq_getElem?, List.getLast?_map, h, Option.map_some']

/-- The index expression of `GetPDType` is in range on every input. -/
theorem lastSegment_ok (t : String) : ∃ v, lastSegment t = .ok v := by
  have hne := strings.splitChars_ne_nil ['/'] t.data 0
  exact ⟨_, lastSegment_of_getLast? t _ (List.getLast?_eq_getLast _ hne)⟩

/-- The `GetPDType` tail on `pre ++ "/" ++ X` for an `X` without `/`. -/
theorem lastSegment_append_slash (pre X : String) (hX : '/' ∉ X.data) :
    lastSegment (pre ++ "/" ++ X) = .ok (strings.TrimSpace X) := by
  have hd : (pre ++ "/" ++ X).data = pre.data ++ '/' :: X.data := by
    simp [String.data_append]
  exact lastSegment_of_getLast? _ _
    (hd ▸ strings.getLast?_splitChars_slash_append X.data hX pre.data)

end CloudDisk

/-! ## Further lemmas on the split, the trimming and the dispatch -/

namespace strings

/-- No segment of a split on `/` contains a `/`. -/
theorem splitChars_slash_no_slash :
    ∀ s : List Char, ∀ seg ∈ splitChars ['/'] s 0, '/' ∉ seg
  | [], seg, h => by
    simp only [splitChars, List.mem_singleton] at h
    simp [h]
  | c :: cs, seg, h => by
    have ih := splitChars_slash_no_slash cs
    rw [splitChars_slash_cons] at h
    by_cases hc : c = '/'
    · rw [if_pos hc] at h
      rcases List.mem_cons.1 h with h | h
      · simp [h]
      · exact ih seg h
    · rw [if_neg hc] at h
      cases hsp : splitChars ['/'] cs 0 with
      | nil =>
        rw [hsp] at h
        simp only [List.mem_singleton] at h
        subst h
        simpa using fun e : '/' = c => hc e.symm
      | cons a l =>
        rw [hsp] at h ih
        rcases List.mem_cons.1 h with h | h
        · subst h
          have ha := ih a (List.mem_cons_self _ _)
          intro hm
          rcases List.mem_cons.1 hm with e | e
          · exact hc e.symm
          · exact ha e
        · exact ih seg (List.mem_cons_of_mem _ h)

/-- `Split` with the separator `"/"` in terms of the scan. -/
theorem Split_slash (t : String) :
    Split t "/" = (splitChars ['/'] t.data 0).map String.mk := by
  simp [Split]

/-- `TrimSpace` only removes characters. -/
theorem TrimSpace_data_subset (s : String) : (TrimSpace s).data ⊆ s.data := by
  intro c hc
  have h1 : c ∈ s.data.dropWhile unicode.IsSpace :=
    (List.rdropWhile_prefix unicode.IsSpace _).subset hc
  exact (List.dropWhile_suffix unicode.IsSpace).subset h1

/-- The result of `TrimSpace` does not start with white space. -/
theorem TrimSpace_head (s : String) :
    ∀ c ∈ (TrimSpace s).data.head?, unicode.IsSpace c = false := by
  intro c hc
  have hpre : (s.data.dropWhile unicode.IsSpace).rdropWhile unicode.IsSpace <+:
      s.data.dropWhile unicode.IsSpace := List.rdropWhile_prefix unicode.IsSpace _
  have hc2 : ((s.data.dropWhile unicode.IsSpace).rdropWhile unicode.IsSpace).head? =
      some c := hc
  obtain ⟨t, ht⟩ := hpre
  have hd := List.head?_dropWhile_not unicode.IsSpace s.data
  cases hr : (s.data.dropWhile unicode.IsSpace).rdropWhile unicode.IsSpace with
  | nil => rw [hr] at hc2; simp at hc2
  | cons a l =>
    rw [hr] at hc2 ht
    simp only [List.head?_cons, Option.some.injEq] at hc2
    rw [← ht] at hd
    simpa [hc2] using hd

/-- The result of `TrimSpace` does not end with white space. -/
theorem TrimSpace_getLast (s : String) :
    ∀ c ∈ (TrimSpace s).data.getLast?, unicode.IsSpace c = false := by
  intro c hc
  have hc2 : ((s.data.dropWhile unicode.IsSpace).rdropWhile unicode.IsSpace).getLast? =
      some c := hc
  have hne : (s.data.dropWhile unicode.IsSpace).rdropWhile unicode.IsSpace ≠ [] := by
    intro e
    rw [e] at hc2
    simp at hc2
  have hl := List.rdropWhile_last_not unicode.IsSpace (s.data.dropWhile unicode.IsSpace) hne
  rw [List.getLast?_eq_getLast _ hne] at hc2
  rw [Option.some.inj hc2] at hl
  simpa using hl

end strings

namespace CloudDisk

/-- The `GetPDType` tail is the PDType rule of section 4.1. -/
theorem lastSegment_eq_pdTypeOf (t : String) :
    lastSegment t = .ok (DiskView.pdTypeOf t) := by
  have hne := strings.splitChars_ne_nil ['/'] t.data 0
  rw [lastSegment_of_getLast? t _ (List.getLast?_eq_getLast _ hne)]
  simp [DiskView.pdTypeOf, strings.Split_slash, List.getLast?_eq_getLast _ hne]

/-- The result of the `GetPDType` tail contains no `/`. -/
theorem lastSegment_no_slash (t v : String) (h : lastSegment t = .ok v) :
    '/' ∉ v.data := by
  have hne := strings.splitChars_ne_nil ['/'] t.data 0
  rw [lastSegment_of_getLast? t _ (List.getLast?_eq_getLast _ hne)] at h
  have hv := Except.ok.inj h
  subst hv
  intro hm
  have h1 := strings.TrimSpace_data_subset _ hm
  exact strings.splitChars_slash_no_slash t.data _ (List.getLast_mem hne) h1

/-- The result of the `GetPDType` tail is trimmed. -/
theorem lastSegment_trimmed (t v : String) (h : lastSegment t = .ok v) :
    (∀ c ∈ v.data.head?, unicode.IsSpace c = false) ∧
    (∀ c ∈ v.data.getLast?, unicode.IsSpace c = false) := by
  have hne := strings.splitChars_ne_nil ['/'] t.data 0
  rw [lastSegment_of_getLast? t _ (List.getLast?_eq_getLast _ hne)] at h
  have hv := Except.ok.inj h
  subst hv
  exact ⟨strings.TrimSpace_head _, strings.TrimSpace_getLast _⟩

/-- The `GetPDType` tail on a string without `/`. -/
theorem lastSegment_of_not_mem (t : String) (h : '/' ∉ t.data) :
    lastSegment t = .ok (strings.TrimSpace t) := by
  have := lastSegment_of_getLast? t t.data
    (by rw [strings.splitChars_slash_of_not_mem _ h]; rfl)
  simpa using this

/-- The `GetPDType` tail leaves its own results unchanged. -/
theorem lastSegment_idem (t v : String) (h : lastSegment t = .ok v) :
    lastSegment v = .ok v := by
  rw [lastSegment_of_not_mem v (lastSegment_no_slash t v h),
    strings.TrimSpace_eq_self v (lastSegment_trimmed t v h).1 (lastSegment_trimmed t v h).2]

/-- `GetPDType` on a non-nil view is the `default` result or the tail applied
to the type reference of the first populated slot. -/
theorem GetPDType_cases (d : CloudDisk) :
    (d.disk = none ∧ d.betaDisk = none ∧ d.alphaDisk = none ∧
      GetPDType (some d) = .ok "") ∨
    (∃ r, d.disk = some r ∧ GetPDType (some d) = lastSegment r.Type_) ∨
    (∃ r, d.disk = none ∧ d.betaDisk = some r ∧
      GetPDType (some d) = lastSegment r.Type_) ∨
    (∃ r, d.disk = none ∧ d.betaDisk = none ∧ d.alphaDisk = some r ∧
      GetPDType (some d) = lastSegment r.Type_) := by
  obtain ⟨a, b, c⟩ := d
  cases a with
  | some a => exact Or.inr (Or.inl ⟨a, rfl, rfl⟩)
  | none =>
    cases b with
    | some b => exact Or.inr (Or.inr (Or.inl ⟨b, rfl, rfl, rfl⟩))
    | none =>
      cases c with
      | some c => exact Or.inr (Or.inr (Or.inr ⟨c, rfl, rfl, rfl, rfl⟩))
      | none => exact Or.inl ⟨rfl, rfl, rfl, rfl⟩

end CloudDisk

namespace CloudDisk

/-- A slot whose `isSome` is `false` is `none`. -/
theorem slot_eq_none {α : Type} (o : Option α) (h : o.isSome = false) : o = none := by
  cases o with
  | none => rfl
  | some x => simp at h

/-- `setSizeGb` on a non-nil view returns, and leaves every slot populated or
absent as it was. -/
theorem setSizeGb_slots (d : CloudDisk) (size : Int) :
    ∃ d1, setSizeGb (some d) size = .ok (some d1) ∧
      d1.disk.isSome = d.disk.isSome ∧ d1.betaDisk.isSome = d.betaDisk.isSome ∧
      d1.alphaDisk.isSome = d.alphaDisk.isSome := by
  obtain ⟨a, b, c⟩ := d
  cases a with
  | some a => exact ⟨_, rfl, rfl, rfl, rfl⟩
  | none =>
    cases b with
    | some b => exact ⟨_, rfl, rfl, rfl, rfl⟩
    | none =>
      cases c with
      | some c => exact ⟨_, rfl, rfl, rfl, rfl⟩
      | none => exact ⟨_, rfl, rfl, rfl, rfl⟩

/-- Any number of `setSizeGb` calls on a non-nil view return, and leave every
slot populated or absent as it was. -/
theorem setSizeGbAll_slots (sizes : List Int) :
    ∀ d : CloudDisk, ∃ d1, setSizeGbAll (some d) sizes = .ok (some d1) ∧
      d1.disk.isSome = d.disk.isSome ∧ d1.betaDisk.isSome = d.betaDisk.isSome ∧
      d1.alphaDisk.isSome = d.alphaDisk.isSome := by
  induction sizes with
  | nil => exact fun d => ⟨d, rfl, rfl, rfl, rfl⟩
  | cons size sizes ih =>
    intro d
    obtain ⟨d1, h1, ha, hb, hc⟩ := setSizeGb_slots d size
    obtain ⟨d2, h2, ha2, hb2, hc2⟩ := ih d1
    refine ⟨d2, ?_, ha2.trans ha, hb2.trans hb, hc2.trans hc⟩
    simp only [setSizeGbAll, h1, h2]

/-- The sum-type accessors agree with the source accessors on the three-slot
view of every variant. -/
theorem readings_toCloudDisk (v : DiskView) :
    readings (some v.toCloudDisk) = DiskView.readings v := by
  cases v with
  | stable r =>
    have hl : LocationType (some { disk := some r }) =
        .ok (DiskView.locationOf r.Zone r.Region) := by
      simp only [LocationType, DiskView.locationOf]
      split_ifs <;> rfl
    have hk : GetKMSKeyName (some { disk := some r }) =
        .ok (DiskView.kmsOf (r.DiskEncryptionKey.map (fun k => k.KmsKeyName))) := by
      simp only [GetKMSKeyName, DiskView.kmsOf]
      cases r.DiskEncryptionKey <;> rfl
    have hp : GetPDType (some { disk := some r }) = .ok (DiskView.pdTypeOf r.Type_) :=
      lastSegment_eq_pdTypeOf r.Type_
    simp only [readings, DiskView.toCloudDisk, DiskView.readings, hl, hk, hp]
    rfl
  | beta r =>
    have hl : LocationType (some { betaDisk := some r }) =
        .ok (DiskView.locationOf r.Zone r.Region) := by
      simp only [LocationType, DiskView.locationOf]
      split_ifs <;> rfl
    have hk : GetKMSKeyName (some { betaDisk := some r }) =
        .ok (DiskView.kmsOf (r.DiskEncryptionKey.map (fun k => k.KmsKeyName))) := by
      simp only [GetKMSKeyName, DiskView.kmsOf]
      cases r.DiskEncryptionKey <;> rfl
    have hp : GetPDType (some { betaDisk := some r }) = .ok (DiskView.pdTypeOf r.Type_) :=
      lastSegment_eq_pdTypeOf r.Type_
    simp only [readings, DiskView.toCloudDisk, DiskView.readings, hl, hk, hp]
    rfl
  | alpha r =>
    have hl : LocationType (some { alphaDisk := some r }) =
        .ok (DiskView.locationOf r.Zone r.Region) := by
      simp only [LocationType, DiskView.locationOf]
      split_ifs <;> rfl
    have hk : GetKMSKeyName (some { alphaDisk := some r }) =
        .ok (DiskView.kmsOf (r.DiskEncryptionKey.map (fun k => k.KmsKeyName))) := by
      simp only [GetKMSKeyName, DiskView.kmsOf]
      cases r.DiskEncryptionKey <;> rfl
    have hp : GetPDType (some { alphaDisk := some r }) = .ok (DiskView.pdTypeOf r.Type_) :=
      lastSegment_eq_pdTypeOf r.Type_
    have he : GetEnableStoragePools (some { alphaDisk := some r }) =
        .ok (decide (r.StoragePool ≠ "")) := by
      simp only [GetEnableStoragePools]
      by_cases h : r.StoragePool = "" <;> simp [h]
    simp only [readings, DiskView.toCloudDisk, DiskView.readings, hl, hk, hp, he]
    rfl
  | empty => decide

/-- What the accessors return on any non-nil view is what they return on the
view that keeps only its first populated slot, in the order stable, beta,
alpha. -/
theorem readings_eq_first_slot (d : CloudDisk) :
    readings (some d) = readings (some (DiskView.ofCloudDisk d).toCloudDisk) := by
  obtain ⟨a, b, c⟩ := d
  cases a with
  | some a => rfl
  | none =>
    cases b with
    | some b => rfl
    | none => cases c <;> rfl

/-- With the cases in the order of the source, `readingsInOrder` is the source
accessors, on every non-nil view. -/
theorem readingsInOrder_source (d : CloudDisk) :
    readingsInOrder [.stable, .beta, .alpha] d = readings (some d) := by
  obtain ⟨a, b, c⟩ := d
  cases a with
  | some a => rfl
  | none =>
    cases b with
    | some b => rfl
    | none => cases c <;> rfl

end CloudDisk

/-- Without the one-slot invariant the order of the cases is observable: on a
view with the stable and the alpha slot populated, testing the alpha slot first
changes what the accessors return. -/
theorem readingsInOrder_observable :
    CloudDisk.readingsInOrder [.alpha, .beta, .stable]
        (CloudDisk.mk (some { Name := "s" }) none (some { Name := "a" })) ≠
      CloudDisk.readings
        (some (CloudDisk.mk (some { Name := "s" }) none (some { Name := "a" }))) := by
  decide

/-! ## The claims -/

open CloudDisk

/-- C1, as written, fails: with the non-empty `X = "a/b"` the type reference
`"projects/p/zones/z/diskTypes/a/b"` has `GetPDType() = "b"`, and with the
non-empty `X = " pd-standard"` the result is `"pd-standard"`; neither is `X`. -/
theorem C1_counterexample :
    ("a/b" : String) ≠ "" ∧
    GetPDType (CloudDiskFromV1
      (some { Type_ := "projects/p/zones/z" ++ "/diskTypes/" ++ "a/b" })) = .ok "b" ∧
    GetPDType (CloudDiskFromV1
      (some { Type_ := "projects/p/zones/z" ++ "/diskTypes/" ++ "a/b" })) ≠ .ok "a/b" ∧
    (" pd-standard" : String) ≠ "" ∧
    GetPDType (CloudDiskFromV1
      (some { Type_ := "projects/p/zones/z" ++ "/diskTypes/" ++ " pd-standard" })) =
        .ok "pd-standard" ∧
    GetPDType (CloudDiskFromV1
      (some { Type_ := "projects/p/zones/z" ++ "/diskTypes/" ++ " pd-standard" })) ≠
        .ok " pd-standard" := by
  decide

/-- C1 (amended): for each of the three revisions and every non-empty string
`X` that contains no `/` and neither starts nor ends with a white-space
character, a view built by that revision's constructor from a record whose type
reference is any string followed by `"/diskTypes/"` followed by `X` has
`GetPDType()` equal to `X`. -/
theorem C1_GetPDType_diskTypes_suffix (pre X : String) (_hne : X ≠ "")
    (hslash : '/' ∉ X.data)
    (hhead : ∀ c ∈ X.data.head?, unicode.IsSpace c = false)
    (hlast : ∀ c ∈ X.data.getLast?, unicode.IsSpace c = false) :
    (∀ r : computev1.Disk, r.Type_ = pre ++ "/diskTypes/" ++ X →
      GetPDType (CloudDiskFromV1 (some r)) = .ok X) ∧
    (∀ r : computebeta.Disk, r.Type_ = pre ++ "/diskTypes/" ++ X →
      GetPDType (CloudDiskFromBeta (some r)) = .ok X) ∧
    (∀ r : computealpha.Disk, r.Type_ = pre ++ "/diskTypes/" ++ X →
      GetPDType (CloudDiskFromAlpha (some r)) = .ok X) := by
  have hassoc : pre ++ "/diskTypes/" ++ X = (pre ++ "/diskTypes") ++ "/" ++ X := by
    have : ("/diskTypes/" : String) = "/diskTypes" ++ "/" := by decide
    rw [this]
    simp only [String.append_assoc]
  have key : lastSegment (pre ++ "/diskTypes/" ++ X) = .ok X := by
    rw [hassoc, lastSegment_append_slash _ _ hslash,
      strings.TrimSpace_eq_self X (fun c h => hhead c h) (fun c h => hlast c h)]
  refine ⟨fun r h => ?_, fun r h => ?_, fun r h => ?_⟩ <;>
    simp only [CloudDiskFromV1, CloudDiskFromBeta, CloudDiskFromAlpha, GetPDType, h, key]

/-- Witness of C1 (amended) at the type reference
`"projects/p/zones/z/diskTypes/pd-standard"`. -/
theorem C1_GetPDType_diskTypes_suffix_witness :
    GetPDType (CloudDiskFromV1
      (some { Type_ := "projects/p/zones/z" ++ "/diskTypes/" ++ "pd-standard" })) =
        .ok "pd-standard" ∧
    GetPDType (CloudDiskFromBeta
      (some { Type_ := "projects/p/zones/z" ++ "/diskTypes/" ++ "pd-standard" })) =
        .ok "pd-standard" ∧
    GetPDType (CloudDiskFromAlpha
      (some { Type_ := "projects/p/zones/z" ++ "/diskTypes/" ++ "pd-standard" })) =
        .ok "pd-standard" :=
  have h := C1_GetPDType_diskTypes_suffix "projects/p/zones/z" "pd-standard"
    (by decide) (by decide) (by decide) (by decide)
  ⟨h.1 _ rfl, h.2.1 _ rfl, h.2.2 _ rfl⟩

/-- C2: on a view with no slot populated `GetSizeGb()` is `-1`, `GetStatus()`
is `"Unknown"`, the string accessors return `""`, `GetUsers` the empty list,
the three flags `false`, and `LocationType` is `Global`. -/
theorem C2_empty_view_defaults (d : CloudDisk)
    (h1 : d.disk = none) (h2 : d.betaDisk = none) (h3 : d.alphaDisk = none) :
    GetSizeGb (some d) = .ok (-1) ∧
    GetStatus (some d) = .ok "Unknown" ∧
    GetName (some d) = .ok "" ∧
    GetKind (some d) = .ok "" ∧
    GetSelfLink (some d) = .ok "" ∧
    GetZone (some d) = .ok "" ∧
    GetSnapshotId (some d) = .ok "" ∧
    GetSourceDiskId (some d) = .ok "" ∧
    GetImageId (some d) = .ok "" ∧
    GetPDType (some d) = .ok "" ∧
    GetKMSKeyName (some d) = .ok "" ∧
    GetUsers (some d) = .ok [] ∧
    GetMultiWriter (some d) = .ok false ∧
    GetEnableConfidentialCompute (some d) = .ok false ∧
    GetEnableStoragePools (some d) = .ok false ∧
    LocationType (some d) = .ok KeyType.Global := by
  obtain ⟨a, b, c⟩ := d
  simp only at h1 h2 h3
  subst h1 h2 h3
  decide

/-- Witness of C2 at the view `CloudDisk{}`, also the result of each
constructor on a `nil` record. -/
theorem C2_empty_view_defaults_witness :
    CloudDiskFromV1 none = some {} ∧
    GetSizeGb (some {}) = .ok (-1) ∧
    GetStatus (some {}) = .ok "Unknown" ∧
    LocationType (some {}) = .ok KeyType.Global :=
  have h := C2_empty_view_defaults {} rfl rfl rfl
  ⟨rfl, h.1, h.2.1, h.2.2.2.2.2.2.2.2.2.2.2.2.2.2.2⟩

/-- C3: for each of the three revisions and every non-nil record `r`, the view
built from `r` reads back `r`'s name, zone, size, self-link, status (verbatim,
the empty status included), source-snapshot id, source-disk id and
source-image id. -/
theorem C3_constructor_read_back :
    (∀ r : computev1.Disk,
      GetName (CloudDiskFromV1 (some r)) = .ok r.Name ∧
      GetZone (CloudDiskFromV1 (some r)) = .ok r.Zone ∧
      GetSizeGb (CloudDiskFromV1 (some r)) = .ok r.SizeGb ∧
      GetSelfLink (CloudDiskFromV1 (some r)) = .ok r.SelfLink ∧
      GetStatus (CloudDiskFromV1 (some r)) = .ok r.Status ∧
      GetSnapshotId (CloudDiskFromV1 (some r)) = .ok r.SourceSnapshotId ∧
      GetSourceDiskId (CloudDiskFromV1 (some r)) = .ok r.SourceDiskId ∧
      GetImageId (CloudDiskFromV1 (some r)) = .ok r.SourceImageId) ∧
    (∀ r : computebeta.Disk,
      GetName (CloudDiskFromBeta (some r)) = .ok r.Name ∧
      GetZone (CloudDiskFromBeta (some r)) = .ok r.Zone ∧
      GetSizeGb (CloudDiskFromBeta (some r)) = .ok r.SizeGb ∧
      GetSelfLink (CloudDiskFromBeta (some r)) = .ok r.SelfLink ∧
      GetStatus (CloudDiskFromBeta (some r)) = .ok r.Status ∧
      GetSnapshotId (CloudDiskFromBeta (some r)) = .ok r.SourceSnapshotId ∧
      GetSourceDiskId (CloudDiskFromBeta (some r)) = .ok r.SourceDiskId ∧
      GetImageId (CloudDiskFromBeta (some r)) = .ok r.SourceImageId) ∧
    (∀ r : computealpha.Disk,
      GetName (CloudDiskFromAlpha (some r)) = .ok r.Name ∧
      GetZone (CloudDiskFromAlpha (some r)) = .ok r.Zone ∧
      GetSizeGb (CloudDiskFromAlpha (some r)) = .ok r.SizeGb ∧
      GetSelfLink (CloudDiskFromAlpha (some r)) = .ok r.SelfLink ∧
      GetStatus (CloudDiskFromAlpha (some r)) = .ok r.Status ∧
      GetSnapshotId (CloudDiskFromAlpha (some r)) = .ok r.SourceSnapshotId ∧
      GetSourceDiskId (CloudDiskFromAlpha (some r)) = .ok r.SourceDiskId ∧
      GetImageId (CloudDiskFromAlpha (some r)) = .ok r.SourceImageId) :=
  ⟨fun _ => ⟨rfl, rfl, rfl, rfl, rfl, rfl, rfl, rfl⟩,
   fun _ => ⟨rfl, rfl, rfl, rfl, rfl, rfl, rfl, rfl⟩,
   fun _ => ⟨rfl, rfl, rfl, rfl, rfl, rfl, rfl, rfl⟩⟩

/-- C4: `GetEnableStoragePools()` is `true` exactly on a (non-nil) view whose
stable and beta slots are absent and whose alpha record has a non-empty
`StoragePool`; on every view built by the stable or the beta constructor it is
`false`, whatever the record. -/
theorem C4_GetEnableStoragePools_iff :
    (∀ d : Option CloudDisk,
      GetEnableStoragePools d = .ok true ↔
        ∃ v a, d = some v ∧ v.disk = none ∧ v.betaDisk = none ∧
          v.alphaDisk = some a ∧ a.StoragePool ≠ "") ∧
    (∀ r : Option computev1.Disk, GetEnableStoragePools (CloudDiskFromV1 r) = .ok false) ∧
    (∀ r : Option computebeta.Disk,
      GetEnableStoragePools (CloudDiskFromBeta r) = .ok false) := by
  refine ⟨fun d => ?_, fun r => ?_, fun r => ?_⟩
  · cases d with
    | none => simp [GetEnableStoragePools]
    | some v =>
      obtain ⟨a, b, c⟩ := v
      cases a <;> cases b <;> cases c <;> simp [GetEnableStoragePools]
  · cases r <;> rfl
  · cases r <;> rfl

/-- C5: on every view built from a non-nil stable-revision record,
`GetMultiWriter()` and `GetEnableConfidentialCompute()` are both `false`,
whatever the record holds. -/
theorem C5_stable_flags_false (r : computev1.Disk) :
    GetMultiWriter (CloudDiskFromV1 (some r)) = .ok false ∧
    GetEnableConfidentialCompute (CloudDiskFromV1 (some r)) = .ok false :=
  ⟨rfl, rfl⟩

/-- C6: `GetMetricParameters` on an absent (nil) view returns the three default
strings, the default disk type followed by `"false"` and `"false"`. -/
theorem C6_GetMetricParameters_nil (DefaultDiskTypeForMetric : String) :
    GetMetricParameters DefaultDiskTypeForMetric none =
      .ok (DefaultDiskTypeForMetric, "false", "false") :=
  rfl

/-- C7: on a present view `v`, `GetMetricParameters` returns the result of
`GetPDType()` and the string forms (`"true"` or `"false"`) of
`GetEnableConfidentialCompute()` and `GetEnableStoragePools()`; on the
three example views of the claim the results are
`("hyperdisk-balanced", "true", "false")`,
`("hyperdisk-balanced", "false", "true")` and
`("hyperdisk-balanced", "false", "false")`. -/
theorem C7_GetMetricParameters_present (dflt : String) :
    (∀ v : CloudDisk, ∃ t cc sp,
      GetPDType (some v) = .ok t ∧
      GetEnableConfidentialCompute (some v) = .ok cc ∧
      GetEnableStoragePools (some v) = .ok sp ∧
      GetMetricParameters dflt (some v) =
        .ok (t, (if cc then "true" else "false"), (if sp then "true" else "false"))) ∧
    GetMetricParameters dflt (CloudDiskFromBeta
      (some { EnableConfidentialCompute := true, Type_ := "hyperdisk-balanced" })) =
        .ok ("hyperdisk-balanced", "true", "false") ∧
    GetMetricParameters dflt (CloudDiskFromAlpha
      (some { StoragePool := "projects/my-project/zone/us-central1-a/storagePools/sp1",
              Type_ := "hyperdisk-balanced" })) =
        .ok ("hyperdisk-balanced", "false", "true") ∧
    GetMetricParameters dflt (CloudDiskFromAlpha
      (some { StoragePool := "", Type_ := "hyperdisk-balanced" })) =
        .ok ("hyperdisk-balanced", "false", "false") := by
  refine ⟨fun v => ?_, ?_, ?_, ?_⟩
  · obtain ⟨a, b, c⟩ := v
    cases a with
    | some a =>
      obtain ⟨t, ht⟩ := lastSegment_ok a.Type_
      exact ⟨t, false, false, by simp [GetPDType, ht], rfl, rfl,
        by simp [GetMetricParameters, GetPDType, ht, GetEnableConfidentialCompute,
          GetEnableStoragePools, FormatBool]⟩
    | none =>
      cases b with
      | some b =>
        obtain ⟨t, ht⟩ := lastSegment_ok b.Type_
        exact ⟨t, b.EnableConfidentialCompute, false, by simp [GetPDType, ht], rfl, rfl,
          by simp [GetMetricParameters, GetPDType, ht, GetEnableConfidentialCompute,
            GetEnableStoragePools, FormatBool]⟩
      | none =>
        cases c with
        | some c =>
          obtain ⟨t, ht⟩ := lastSegment_ok c.Type_
          exact ⟨t, c.EnableConfidentialCompute, c.StoragePool != "",
            by simp [GetPDType, ht], rfl, rfl,
            by simp [GetMetricParameters, GetPDType, ht, GetEnableConfidentialCompute,
              GetEnableStoragePools, FormatBool]⟩
        | none => exact ⟨"", false, false, rfl, rfl, rfl, rfl⟩
  · rfl
  · rfl
  · rfl

/-- C8, as written, fails on the absent view: every accessor called on a `nil`
`*CloudDisk` reads a field through the nil pointer and panics. -/
theorem C8_counterexample :
    LocationType none = .error .nilPointerDereference ∧
    GetUsers none = .error .nilPointerDereference ∧
    GetName none = .error .nilPointerDereference ∧
    GetKind none = .error .nilPointerDereference ∧
    GetStatus none = .error .nilPointerDereference ∧
    GetPDType none = .error .nilPointerDereference ∧
    GetSelfLink none = .error .nilPointerDereference ∧
    GetSizeGb none = .error .nilPointerDereference ∧
    GetZone none = .error .nilPointerDereference ∧
    GetSnapshotId none = .error .nilPointerDereference ∧
    GetSourceDiskId none = .error .nilPointerDereference ∧
    GetImageId none = .error .nilPointerDereference ∧
    GetKMSKeyName none = .error .nilPointerDereference ∧
    GetMultiWriter none = .error .nilPointerDereference ∧
    GetEnableConfidentialCompute none = .error .nilPointerDereference ∧
    GetEnableStoragePools none = .error .nilPointerDereference :=
  ⟨rfl, rfl, rfl, rfl, rfl, rfl, rfl, rfl, rfl, rfl, rfl, rfl, rfl, rfl, rfl, rfl⟩

/-- C8 (amended): every accessor returns a value without panicking on every
non-nil view, whatever slots are populated: one slot, none (the completely
empty view), or several. -/
theorem C8_accessors_total_on_views (d : CloudDisk) :
    (∃ v, LocationType (some d) = .ok v) ∧
    (∃ v, GetUsers (some d) = .ok v) ∧
    (∃ v, GetName (some d) = .ok v) ∧
    (∃ v, GetKind (some d) = .ok v) ∧
    (∃ v, GetStatus (some d) = .ok v) ∧
    (∃ v, GetPDType (some d) = .ok v) ∧
    (∃ v, GetSelfLink (some d) = .ok v) ∧
    (∃ v, GetSizeGb (some d) = .ok v) ∧
    (∃ v, GetZone (some d) = .ok v) ∧
    (∃ v, GetSnapshotId (some d) = .ok v) ∧
    (∃ v, GetSourceDiskId (some d) = .ok v) ∧
    (∃ v, GetImageId (some d) = .ok v) ∧
    (∃ v, GetKMSKeyName (some d) = .ok v) ∧
    (∃ v, GetMultiWriter (some d) = .ok v) ∧
    (∃ v, GetEnableConfidentialCompute (some d) = .ok v) ∧
    (∃ v, GetEnableStoragePools (some d) = .ok v) := by
  obtain ⟨a, b, c⟩ := d
  have hpd : ∃ v, GetPDType (some ⟨a, b, c⟩) = .ok v := by
    cases a with
    | some a => exact lastSegment_ok a.Type_
    | none =>
      cases b with
      | some b => exact lastSegment_ok b.Type_
      | none =>
        cases c with
        | some c => exact lastSegment_ok c.Type_
        | none => exact ⟨"", rfl⟩
  have hloc : ∃ v, LocationType (some ⟨a, b, c⟩) = .ok v := by
    simp only [LocationType]
    split
    · exact ⟨_, rfl⟩
    · split <;> exact ⟨_, rfl⟩
  have hkms : ∃ v, GetKMSKeyName (some ⟨a, b, c⟩) = .ok v := by
    simp only [GetKMSKeyName]
    split
    · split <;> exact ⟨_, rfl⟩
    · split <;> exact ⟨_, rfl⟩
    · split <;> exact ⟨_, rfl⟩
    · exact ⟨_, rfl⟩
  refine ⟨hloc, ?_, ?_, ?_, ?_, hpd, ?_, ?_, ?_, ?_, ?_, ?_, hkms, ?_, ?_, ?_⟩ <;>
    cases a <;> cases b <;> cases c <;> exact ⟨_, rfl⟩

/-- C9: `LocationType()` is `Zonal` when the zone of the record that is read
(the stable one, else the beta one, else the alpha one) is non-empty, whatever
its region; otherwise `Regional` when that record's region is non-empty;
otherwise `Global`; with no slot populated it is `Global`. -/
theorem C9_LocationType (d : CloudDisk) :
    (∀ r, d.disk = some r →
      LocationType (some d) = .ok (if r.Zone ≠ "" then KeyType.Zonal
        else if r.Region ≠ "" then KeyType.Regional else KeyType.Global)) ∧
    (∀ r, d.disk = none → d.betaDisk = some r →
      LocationType (some d) = .ok (if r.Zone ≠ "" then KeyType.Zonal
        else if r.Region ≠ "" then KeyType.Regional else KeyType.Global)) ∧
    (∀ r, d.disk = none → d.betaDisk = none → d.alphaDisk = some r →
      LocationType (some d) = .ok (if r.Zone ≠ "" then KeyType.Zonal
        else if r.Region ≠ "" then KeyType.Regional else KeyType.Global)) ∧
    (d.disk = none → d.betaDisk = none → d.alphaDisk = none →
      LocationType (some d) = .ok KeyType.Global) := by
  obtain ⟨a, b, c⟩ := d
  refine ⟨?_, ?_, ?_, ?_⟩
  · rintro r ⟨rfl⟩
    simp only [LocationType]
    split_ifs <;> rfl
  · rintro r ⟨rfl⟩ ⟨rfl⟩
    simp only [LocationType]
    split_ifs <;> rfl
  · rintro r ⟨rfl⟩ ⟨rfl⟩ ⟨rfl⟩
    simp only [LocationType]
    split_ifs <;> rfl
  · rintro ⟨rfl⟩ ⟨rfl⟩ ⟨rfl⟩
    rfl

/-- C10: for each of the three revisions and every non-nil record `r`, the view
built from `r` has `GetKMSKeyName()` equal to the key name of
`r.DiskEncryptionKey` when that key is present, and to `""` when it is nil. -/
theorem C10_GetKMSKeyName :
    (∀ r : computev1.Disk,
      (∀ k, r.DiskEncryptionKey = some k →
        GetKMSKeyName (CloudDiskFromV1 (some r)) = .ok k.KmsKeyName) ∧
      (r.DiskEncryptionKey = none → GetKMSKeyName (CloudDiskFromV1 (some r)) = .ok "")) ∧
    (∀ r : computebeta.Disk,
      (∀ k, r.DiskEncryptionKey = some k →
        GetKMSKeyName (CloudDiskFromBeta (some r)) = .ok k.KmsKeyName) ∧
      (r.DiskEncryptionKey = none → GetKMSKeyName (CloudDiskFromBeta (some r)) = .ok "")) ∧
    (∀ r : computealpha.Disk,
      (∀ k, r.DiskEncryptionKey = some k →
        GetKMSKeyName (CloudDiskFromAlpha (some r)) = .ok k.KmsKeyName) ∧
      (r.DiskEncryptionKey = none →
        GetKMSKeyName (CloudDiskFromAlpha (some r)) = .ok "")) := by
  refine ⟨fun r => ⟨fun k h => ?_, fun h => ?_⟩, fun r => ⟨fun k h => ?_, fun h => ?_⟩,
    fun r => ⟨fun k h => ?_, fun h => ?_⟩⟩ <;>
  simp [GetKMSKeyName, CloudDiskFromV1, CloudDiskFromBeta, CloudDiskFromAlpha, h]

/-- Witness of C9: a beta record with zone and region is `Zonal`, an alpha
record with a region only is `Regional`, a stable record with neither is
`Global`. -/
theorem C9_LocationType_witness :
    LocationType (CloudDiskFromBeta
      (some { Zone := "us-central1-a", Region := "us-central1" })) = .ok KeyType.Zonal ∧
    LocationType (CloudDiskFromAlpha (some { Region := "us-central1" })) =
      .ok KeyType.Regional ∧
    LocationType (CloudDiskFromV1 (some {})) = .ok KeyType.Global :=
  ⟨(C9_LocationType { betaDisk := some { Zone := "us-central1-a", Region := "us-central1" } }).2.1
      _ rfl rfl,
   (C9_LocationType { alphaDisk := some { Region := "us-central1" } }).2.2.1 _ rfl rfl rfl,
   (C9_LocationType { disk := some {} }).1 _ rfl⟩

/-- Witness of C10: a beta record with an encryption key, and a stable record
without one. -/
theorem C10_GetKMSKeyName_witness :
    GetKMSKeyName (CloudDiskFromBeta
      (some { DiskEncryptionKey := some { KmsKeyName := "projects/p/keys/k" } })) =
        .ok "projects/p/keys/k" ∧
    GetKMSKeyName (CloudDiskFromV1 (some { DiskEncryptionKey := none })) = .ok "" :=
  ⟨(C10_GetKMSKeyName.2.1
      { DiskEncryptionKey := some { KmsKeyName := "projects/p/keys/k" } }).1 _ rfl,
   (C10_GetKMSKeyName.1 { DiskEncryptionKey := none }).2 rfl⟩

/-- C11: on every view built from a non-nil beta or alpha record `r`,
`GetMultiWriter()` is `r.MultiWriter` and `GetEnableConfidentialCompute()` is
`r.EnableConfidentialCompute`, whatever the other fields of `r` are. -/
theorem C11_beta_alpha_flags_verbatim :
    (∀ r : computebeta.Disk,
      GetMultiWriter (CloudDiskFromBeta (some r)) = .ok r.MultiWriter ∧
      GetEnableConfidentialCompute (CloudDiskFromBeta (some r)) =
        .ok r.EnableConfidentialCompute) ∧
    (∀ r : computealpha.Disk,
      GetMultiWriter (CloudDiskFromAlpha (some r)) = .ok r.MultiWriter ∧
      GetEnableConfidentialCompute (CloudDiskFromAlpha (some r)) =
        .ok r.EnableConfidentialCompute) :=
  ⟨fun _ => ⟨rfl, rfl⟩, fun _ => ⟨rfl, rfl⟩⟩

/-- C12: each constructor returns (it cannot fail) a non-nil view whose slot of
that revision is exactly the given record and whose other two slots are
absent; and after any sequence of `setSizeGb` calls on a constructor-built
view the calls have returned, the other two slots are still absent, and at most
one slot is populated. -/
theorem C12_constructors_one_slot :
    (∀ r, CloudDiskFromV1 r = some { disk := r, betaDisk := none, alphaDisk := none }) ∧
    (∀ r, CloudDiskFromBeta r = some { disk := none, betaDisk := r, alphaDisk := none }) ∧
    (∀ r, CloudDiskFromAlpha r = some { disk := none, betaDisk := none, alphaDisk := r }) ∧
    (∀ r sizes, ∃ v, setSizeGbAll (CloudDiskFromV1 r) sizes = .ok (some v) ∧
      v.disk.isSome = r.isSome ∧ v.betaDisk = none ∧ v.alphaDisk = none ∧
      v.populated ≤ 1) ∧
    (∀ r sizes, ∃ v, setSizeGbAll (CloudDiskFromBeta r) sizes = .ok (some v) ∧
      v.disk = none ∧ v.betaDisk.isSome = r.isSome ∧ v.alphaDisk = none ∧
      v.populated ≤ 1) ∧
    (∀ r sizes, ∃ v, setSizeGbAll (CloudDiskFromAlpha r) sizes = .ok (some v) ∧
      v.disk = none ∧ v.betaDisk = none ∧ v.alphaDisk.isSome = r.isSome ∧
      v.populated ≤ 1) := by
  refine ⟨fun _ => rfl, fun _ => rfl, fun _ => rfl, fun r sizes => ?_, fun r sizes => ?_,
    fun r sizes => ?_⟩
  · obtain ⟨v, hv, ha, hb, hc⟩ := setSizeGbAll_slots sizes { disk := r }
    have hb1 := slot_eq_none _ hb
    have hc1 := slot_eq_none _ hc
    refine ⟨v, hv, ha, hb1, hc1, ?_⟩
    simp only [populated, hb1, hc1]
    cases v.disk <;> simp
  · obtain ⟨v, hv, ha, hb, hc⟩ := setSizeGbAll_slots sizes { betaDisk := r }
    have ha1 := slot_eq_none _ ha
    have hc1 := slot_eq_none _ hc
    refine ⟨v, hv, ha1, hb, hc1, ?_⟩
    simp only [populated, ha1, hc1]
    cases v.betaDisk <;> simp
  · obtain ⟨v, hv, ha, hb, hc⟩ := setSizeGbAll_slots sizes { alphaDisk := r }
    have ha1 := slot_eq_none _ ha
    have hb1 := slot_eq_none _ hb
    refine ⟨v, hv, ha1, hb1, hc, ?_⟩
    simp only [populated, ha1, hb1]
    cases v.alphaDisk <;> simp

/-- C13: on a non-nil view whose first populated slot holds a record with type
reference `t`, `GetPDType()` is the white-space-trimmed part of `t` after its
last `/` (the `x` of `t = p ++ "/" ++ x` with no `/` in `x`), and the trimmed
whole of `t` when `t` has no `/`; it is `""` when `t` is empty or ends with
`/`.  Every `t` is of one of the two forms. -/
theorem C13_GetPDType_after_last_slash (d : CloudDisk) (t : String)
    (ht : (∃ r, d.disk = some r ∧ r.Type_ = t) ∨
      (d.disk = none ∧ ∃ r, d.betaDisk = some r ∧ r.Type_ = t) ∨
      (d.disk = none ∧ d.betaDisk = none ∧ ∃ r, d.alphaDisk = some r ∧ r.Type_ = t)) :
    (∀ p x : String, t = p ++ "/" ++ x → '/' ∉ x.data →
      GetPDType (some d) = .ok (strings.TrimSpace x)) ∧
    ('/' ∉ t.data → GetPDType (some d) = .ok (strings.TrimSpace t)) ∧
    (t = "" → GetPDType (some d) = .ok "") ∧
    (∀ p : String, t = p ++ "/" → GetPDType (some d) = .ok "") ∧
    ('/' ∉ t.data ∨ ∃ p x : String, t = p ++ "/" ++ x ∧ '/' ∉ x.data) := by
  have hd : GetPDType (some d) = lastSegment t := by
    obtain ⟨a, b, c⟩ := d
    rcases ht with ⟨r, h1, h2⟩ | ⟨h0, r, h1, h2⟩ | ⟨h0, h0b, r, h1, h2⟩
    · simp only at h1
      subst h1 h2
      rfl
    · simp only at h0 h1
      subst h0 h1 h2
      rfl
    · simp only at h0 h0b h1
      subst h0 h0b h1 h2
      rfl
  rw [hd]
  refine ⟨fun p x hpx hx => ?_, lastSegment_of_not_mem t, fun h => ?_, fun p h => ?_, ?_⟩
  · rw [hpx]
    exact lastSegment_append_slash p x hx
  · subst h
    decide
  · have h2 : t = p ++ "/" ++ "" := by rw [h]; simp
    rw [h2, lastSegment_append_slash p "" (by simp)]
    decide
  · have hne := strings.splitChars_ne_nil ['/'] t.data 0
    by_cases hs : '/' ∈ t.data
    · right
      obtain ⟨p, x, hpx, hx⟩ : ∃ p x : List Char, t.data = p ++ '/' :: x ∧ '/' ∉ x := by
        have key : ∀ l : List Char, '/' ∈ l →
            ∃ p x : List Char, l = p ++ '/' :: x ∧ '/' ∉ x := by
          intro l
          induction l with
          | nil => intro h; simp at h
          | cons c cs ih =>
            intro h
            by_cases hcs : '/' ∈ cs
            · obtain ⟨p, x, hpx, hx⟩ := ih hcs
              exact ⟨c :: p, x, by rw [hpx]; rfl, hx⟩
            · have hc : c = '/' := by
                rcases List.mem_cons.1 h with e | e
                · exact e.symm
                · exact absurd e hcs
              exact ⟨[], cs, by rw [hc]; rfl, hcs⟩
        exact key _ hs
      refine ⟨String.mk p, String.mk x, ?_, hx⟩
      apply String.ext
      simp [String.data_append, hpx]
    · exact Or.inl hs

/-- Witness of C13 at an alpha view with the type reference
`"projects/p/zones/z/diskTypes/ hyperdisk-balanced "`, and at a stable view
whose type reference ends with `/`. -/
theorem C13_GetPDType_after_last_slash_witness :
    GetPDType (CloudDiskFromAlpha
      (some { Type_ := "projects/p/zones/z/diskTypes/ hyperdisk-balanced " })) =
        .ok "hyperdisk-balanced" ∧
    GetPDType (CloudDiskFromV1 (some { Type_ := "projects/p/zones/z/diskTypes/" })) =
        .ok "" :=
  ⟨((C13_GetPDType_after_last_slash
      { alphaDisk := some { Type_ := "projects/p/zones/z/diskTypes/ hyperdisk-balanced " } }
      "projects/p/zones/z/diskTypes/ hyperdisk-balanced "
      (Or.inr (Or.inr ⟨rfl, rfl, _, rfl, rfl⟩))).1
      "projects/p/zones/z/diskTypes" " hyperdisk-balanced " (by decide) (by decide)).trans
      (by decide),
   (C13_GetPDType_after_last_slash
      { disk := some { Type_ := "projects/p/zones/z/diskTypes/" } }
      "projects/p/zones/z/diskTypes/" (Or.inl ⟨_, rfl, rfl⟩)).2.2.2.1
      "projects/p/zones/z/diskTypes" (by decide)⟩

/-- C14: every accessor dispatches with the precedence stable, beta, alpha: on
a non-nil view, whatever the other slots hold, each of the sixteen accessors
returns the value derived from the stable record if the stable slot is
populated, else from the beta record if the beta slot is populated, else from
the alpha record.  The value derived from a record is spelled out per accessor
(the field read, the location kind of its zone and region, the trimmed last
segment of its type reference, the key name of its encryption key or `""`, the
flags of its revision), and it is what the accessor returns on the view of that
record alone; in particular `GetMultiWriter`, `GetEnableConfidentialCompute`
and `GetEnableStoragePools` are `false` whenever the stable slot is
populated. -/
theorem C14_dispatch_precedence (d : CloudDisk) :
    (∀ r, d.disk = some r → readings (some d) = readings (CloudDiskFromV1 (some r))) ∧
    (∀ r, d.disk = none → d.betaDisk = some r →
      readings (some d) = readings (CloudDiskFromBeta (some r))) ∧
    (∀ r, d.disk = none → d.betaDisk = none → d.alphaDisk = some r →
      readings (some d) = readings (CloudDiskFromAlpha (some r))) ∧
    (∀ r, d.disk = some r →
      GetMultiWriter (some d) = .ok false ∧
      GetEnableConfidentialCompute (some d) = .ok false ∧
      GetEnableStoragePools (some d) = .ok false) ∧
    (∀ r : computev1.Disk, d.disk = some r →
      LocationType (some d) = .ok (if r.Zone ≠ "" then KeyType.Zonal
        else if r.Region ≠ "" then KeyType.Regional else KeyType.Global) ∧
      GetUsers (some d) = .ok r.Users ∧
      GetName (some d) = .ok r.Name ∧
      GetKind (some d) = .ok r.Kind ∧
      GetStatus (some d) = .ok r.Status ∧
      GetPDType (some d) =
        .ok (strings.TrimSpace ((strings.Split r.Type_ "/").getLast?.getD "")) ∧
      GetSelfLink (some d) = .ok r.SelfLink ∧
      GetSizeGb (some d) = .ok r.SizeGb ∧
      GetZone (some d) = .ok r.Zone ∧
      GetSnapshotId (some d) = .ok r.SourceSnapshotId ∧
      GetSourceDiskId (some d) = .ok r.SourceDiskId ∧
      GetImageId (some d) = .ok r.SourceImageId ∧
      GetKMSKeyName (some d) =
        .ok ((r.DiskEncryptionKey.map (fun k => k.KmsKeyName)).getD "") ∧
      GetMultiWriter (some d) = .ok false ∧
      GetEnableConfidentialCompute (some d) = .ok false ∧
      GetEnableStoragePools (some d) = .ok false) ∧
    (∀ r : computebeta.Disk, d.disk = none → d.betaDisk = some r →
      LocationType (some d) = .ok (if r.Zone ≠ "" then KeyType.Zonal
        else if r.Region ≠ "" then KeyType.Regional else KeyType.Global) ∧
      GetUsers (some d) = .ok r.Users ∧
      GetName (some d) = .ok r.Name ∧
      GetKind (some d) = .ok r.Kind ∧
      GetStatus (some d) = .ok r.Status ∧
      GetPDType (some d) =
        .ok (strings.TrimSpace ((strings.Split r.Type_ "/").getLast?.getD "")) ∧
      GetSelfLink (some d) = .ok r.SelfLink ∧
      GetSizeGb (some d) = .ok r.SizeGb ∧
      GetZone (some d) = .ok r.Zone ∧
      GetSnapshotId (some d) = .ok r.SourceSnapshotId ∧
      GetSourceDiskId (some d) = .ok r.SourceDiskId ∧
      GetImageId (some d) = .ok r.SourceImageId ∧
      GetKMSKeyName (some d) =
        .ok ((r.DiskEncryptionKey.map (fun k => k.KmsKeyName)).getD "") ∧
      GetMultiWriter (some d) = .ok r.MultiWriter ∧
      GetEnableConfidentialCompute (some d) = .ok r.EnableConfidentialCompute ∧
      GetEnableStoragePools (some d) = .ok false) ∧
    (∀ r : computealpha.Disk, d.disk = none → d.betaDisk = none → d.alphaDisk = some r →
      LocationType (some d) = .ok (if r.Zone ≠ "" then KeyType.Zonal
        else if r.Region ≠ "" then KeyType.Regional else KeyType.Global) ∧
      GetUsers (some d) = .ok r.Users ∧
      GetName (some d) = .ok r.Name ∧
      GetKind (some d) = .ok r.Kind ∧
      GetStatus (some d) = .ok r.Status ∧
      GetPDType (some d) =
        .ok (strings.TrimSpace ((strings.Split r.Type_ "/").getLast?.getD "")) ∧
      GetSelfLink (some d) = .ok r.SelfLink ∧
      GetSizeGb (some d) = .ok r.SizeGb ∧
      GetZone (some d) = .ok r.Zone ∧
      GetSnapshotId (some d) = .ok r.SourceSnapshotId ∧
      GetSourceDiskId (some d) = .ok r.SourceDiskId ∧
      GetImageId (some d) = .ok r.SourceImageId ∧
      GetKMSKeyName (some d) =
        .ok ((r.DiskEncryptionKey.map (fun k => k.KmsKeyName)).getD "") ∧
      GetMultiWriter (some d) = .ok r.MultiWriter ∧
      GetEnableConfidentialCompute (some d) = .ok r.EnableConfidentialCompute ∧
      GetEnableStoragePools (some d) = .ok (decide (r.StoragePool ≠ ""))) := by
  obtain ⟨a, b, c⟩ := d
  refine ⟨?_, ?_, ?_, ?_, ?_, ?_, ?_⟩
  · rintro r ⟨rfl⟩
    rfl
  · rintro r ⟨rfl⟩ ⟨rfl⟩
    rfl
  · rintro r ⟨rfl⟩ ⟨rfl⟩ ⟨rfl⟩
    rfl
  · rintro r ⟨rfl⟩
    exact ⟨rfl, rfl, rfl⟩
  · rintro r ⟨rfl⟩
    refine ⟨?_, rfl, rfl, rfl, rfl, ?_, rfl, rfl, rfl, rfl, rfl, rfl, ?_, rfl, rfl, rfl⟩
    · simp only [LocationType]
      split_ifs <;> rfl
    · exact (show GetPDType (some ⟨some r, b, c⟩) = lastSegment r.Type_ from rfl).trans
        (lastSegment_eq_pdTypeOf r.Type_)
    · simp only [GetKMSKeyName]
      cases r.DiskEncryptionKey <;> rfl
  · rintro r ⟨rfl⟩ ⟨rfl⟩
    refine ⟨?_, rfl, rfl, rfl, rfl, ?_, rfl, rfl, rfl, rfl, rfl, rfl, ?_, rfl, rfl, rfl⟩
    · simp only [LocationType]
      split_ifs <;> rfl
    · exact (show GetPDType (some ⟨none, some r, c⟩) = lastSegment r.Type_ from rfl).trans
        (lastSegment_eq_pdTypeOf r.Type_)
    · simp only [GetKMSKeyName]
      cases r.DiskEncryptionKey <;> rfl
  · rintro r ⟨rfl⟩ ⟨rfl⟩ ⟨rfl⟩
    refine ⟨?_, rfl, rfl, rfl, rfl, ?_, rfl, rfl, rfl, rfl, rfl, rfl, ?_, rfl, rfl, ?_⟩
    · simp only [LocationType]
      split_ifs <;> rfl
    · exact (show GetPDType (some ⟨none, none, some r⟩) = lastSegment r.Type_ from rfl).trans
        (lastSegment_eq_pdTypeOf r.Type_)
    · simp only [GetKMSKeyName]
      cases r.DiskEncryptionKey <;> rfl
    · simp only [GetEnableStoragePools]
      by_cases h : r.StoragePool = "" <;> simp [h]

/-- Witness of C14 on a view with all three slots populated, where the stable
record is the one read (its name, its kind, `false` for the multi-writer flag
although the beta record has it set), and on a view with the beta and alpha
slots populated, where the beta record is. -/
theorem C14_dispatch_precedence_witness :
    GetName (some (CloudDisk.mk (some { Name := "s", Kind := "compute#disk" })
      (some { Name := "b", MultiWriter := true })
      (some { Name := "a", StoragePool := "sp" }))) = .ok "s" ∧
    GetKind (some (CloudDisk.mk (some { Name := "s", Kind := "compute#disk" })
      (some { Name := "b", MultiWriter := true })
      (some { Name := "a", StoragePool := "sp" }))) = .ok "compute#disk" ∧
    GetMultiWriter (some (CloudDisk.mk (some { Name := "s", Kind := "compute#disk" })
      (some { Name := "b", MultiWriter := true })
      (some { Name := "a", StoragePool := "sp" }))) = .ok false ∧
    GetName (some (CloudDisk.mk none
      (some { Name := "b", MultiWriter := true })
      (some { Name := "a", StoragePool := "sp" }))) = .ok "b" ∧
    GetMultiWriter (some (CloudDisk.mk none
      (some { Name := "b", MultiWriter := true })
      (some { Name := "a", StoragePool := "sp" }))) = .ok true ∧
    GetEnableStoragePools (some (CloudDisk.mk none
      (some { Name := "b", MultiWriter := true })
      (some { Name := "a", StoragePool := "sp" }))) = .ok false :=
  have h1 := (C14_dispatch_precedence (CloudDisk.mk
      (some { Name := "s", Kind := "compute#disk" })
      (some { Name := "b", MultiWriter := true })
      (some { Name := "a", StoragePool := "sp" }))).2.2.2.2.1 _ rfl
  have h2 := (C14_dispatch_precedence (CloudDisk.mk none
      (some { Name := "b", MultiWriter := true })
      (some { Name := "a", StoragePool := "sp" }))).2.2.2.2.2.1 _ rfl rfl
  ⟨h1.2.2.1, h1.2.2.2.1, h1.2.2.2.2.2.2.2.2.2.2.2.2.2.1,
   h2.2.2.1, h2.2.2.2.2.2.2.2.2.2.2.2.2.2.1, h2.2.2.2.2.2.2.2.2.2.2.2.2.2.2.2⟩

/-- C15: on a non-nil view with at most one slot populated the order of the
`switch` cases cannot be observed: the sixteen accessors with the cases tested
in any of the six orders return what the source accessors return; and the
three-slot view agrees with the closed sum type (cases stable, beta, alpha,
empty) with the accessor rules of section 4.1, of which it is the image. -/
theorem C15_dispatch_order_unobservable (d : CloudDisk) (h : d.populated ≤ 1) :
    (∀ order ∈ [[Slot.stable, Slot.beta, Slot.alpha], [Slot.stable, Slot.alpha, Slot.beta],
        [Slot.beta, Slot.stable, Slot.alpha], [Slot.beta, Slot.alpha, Slot.stable],
        [Slot.alpha, Slot.stable, Slot.beta], [Slot.alpha, Slot.beta, Slot.stable]],
      readingsInOrder order d = readings (some d)) ∧
    DiskView.readings (DiskView.ofCloudDisk d) = readings (some d) ∧
    (DiskView.ofCloudDisk d).toCloudDisk = d := by
  have hsum : DiskView.readings (DiskView.ofCloudDisk d) = readings (some d) := by
    rw [readings_eq_first_slot d, readings_toCloudDisk]
  refine ⟨?_, hsum, ?_⟩
  · intro order ho
    simp only [List.mem_cons, List.mem_singleton, List.not_mem_nil, or_false] at ho
    obtain ⟨a, b, c⟩ := d
    cases a <;> cases b <;> cases c <;>
      first
      | (rcases ho with rfl | rfl | rfl | rfl | rfl | rfl <;> rfl)
      | (simp [populated] at h)
  · obtain ⟨a, b, c⟩ := d
    cases a <;> cases b <;> cases c <;>
      first
      | rfl
      | (simp [populated] at h)

/-- Witness of C15 at a beta-only view, with the cases in the order alpha,
beta, stable. -/
theorem C15_dispatch_order_unobservable_witness :
    readingsInOrder [Slot.alpha, Slot.beta, Slot.stable]
        { betaDisk := some { Name := "b", EnableConfidentialCompute := true } } =
      readings (CloudDiskFromBeta (some { Name := "b", EnableConfidentialCompute := true })) ∧
    DiskView.readings (DiskView.beta { Name := "b", EnableConfidentialCompute := true }) =
      readings (CloudDiskFromBeta (some { Name := "b", EnableConfidentialCompute := true })) :=
  have h := C15_dispatch_order_unobservable
    { betaDisk := some { Name := "b", EnableConfidentialCompute := true } } (by decide)
  ⟨h.1 _ (by decide), h.2.1⟩

/-- C16: `setSizeGb` changes only the size.  On a non-nil view the call
returns and no slot changes between populated and absent; with a populated
slot, afterwards `GetSizeGb()` is the size set and every other accessor returns
what it returned before; with no slot populated the view is unchanged and
`GetSizeGb()` is still `-1`. -/
theorem C16_setSizeGb_frame (d : CloudDisk) (size : Int) :
    ∃ d1, setSizeGb (some d) size = .ok (some d1) ∧
      (d1.disk.isSome = d.disk.isSome ∧ d1.betaDisk.isSome = d.betaDisk.isSome ∧
        d1.alphaDisk.isSome = d.alphaDisk.isSome) ∧
      (0 < d.populated →
        GetSizeGb (some d1) = .ok size ∧
        readings (some d1) = { readings (some d) with sizeGb := .ok size }) ∧
      (d.populated = 0 → d1 = d ∧ GetSizeGb (some d1) = .ok (-1)) := by
  obtain ⟨a, b, c⟩ := d
  cases a with
  | some a =>
    refine ⟨_, rfl, ⟨rfl, rfl, rfl⟩, fun _ => ⟨rfl, rfl⟩, fun h => ?_⟩
    simp [populated] at h
  | none =>
    cases b with
    | some b =>
      refine ⟨_, rfl, ⟨rfl, rfl, rfl⟩, fun _ => ⟨rfl, rfl⟩, fun h => ?_⟩
      simp [populated] at h
    | none =>
      cases c with
      | some c =>
        refine ⟨_, rfl, ⟨rfl, rfl, rfl⟩, fun _ => ⟨rfl, rfl⟩, fun h => ?_⟩
        simp [populated] at h
      | none =>
        refine ⟨_, rfl, ⟨rfl, rfl, rfl⟩, fun h => ?_, fun _ => ⟨rfl, rfl⟩⟩
        simp [populated] at h

/-- Witness of C16: setting the size of a beta view of size 10 to 20 gives the
view of size 20, whose size reads 20 and whose name reads as before. -/
theorem C16_setSizeGb_frame_witness :
    setSizeGb (CloudDiskFromBeta (some { Name := "b", SizeGb := 10 })) 20 =
      .ok (CloudDiskFromBeta (some { Name := "b", SizeGb := 20 })) ∧
    GetSizeGb (CloudDiskFromBeta (some { Name := "b", SizeGb := 20 })) = .ok 20 ∧
    GetName (CloudDiskFromBeta (some { Name := "b", SizeGb := 20 })) =
      GetName (CloudDiskFromBeta (some { Name := "b", SizeGb := 10 })) := by
  obtain ⟨d1, h1, _, h2, _⟩ :=
    C16_setSizeGb_frame { betaDisk := some { Name := "b", SizeGb := 10 } } 20
  have hs : setSizeGb (CloudDiskFromBeta (some { Name := "b", SizeGb := 10 })) 20 =
      .ok (CloudDiskFromBeta (some { Name := "b", SizeGb := 20 })) := by decide
  have e : some d1 = CloudDiskFromBeta (some { Name := "b", SizeGb := 20 }) :=
    Except.ok.inj (h1.symm.trans hs)
  obtain ⟨h3, h4⟩ := h2 (by decide)
  rw [e] at h3 h4
  exact ⟨hs, h3, congrArg Readings.name h4⟩

/-- C17: on every non-nil view `GetPDType()` returns a string that contains no
`/` and neither starts nor ends with a white-space character; hence
`GetPDType` is idempotent: a view built, by any of the three constructors, from
a record whose type reference is that result returns the same string. -/
theorem C17_GetPDType_clean_idempotent (d : CloudDisk) :
    ∃ v, GetPDType (some d) = .ok v ∧
      '/' ∉ v.data ∧
      (∀ c ∈ v.data.head?, unicode.IsSpace c = false) ∧
      (∀ c ∈ v.data.getLast?, unicode.IsSpace c = false) ∧
      (∀ r : computev1.Disk, r.Type_ = v → GetPDType (CloudDiskFromV1 (some r)) = .ok v) ∧
      (∀ r : computebeta.Disk, r.Type_ = v →
        GetPDType (CloudDiskFromBeta (some r)) = .ok v) ∧
      (∀ r : computealpha.Disk, r.Type_ = v →
        GetPDType (CloudDiskFromAlpha (some r)) = .ok v) := by
  have ht : ∃ t, GetPDType (some d) = lastSegment t := by
    rcases GetPDType_cases d with ⟨_, _, _, h⟩ | ⟨r, _, h⟩ | ⟨r, _, _, h⟩ | ⟨r, _, _, _, h⟩
    · exact ⟨"", h.trans (by decide)⟩
    · exact ⟨_, h⟩
    · exact ⟨_, h⟩
    · exact ⟨_, h⟩
  obtain ⟨t, ht⟩ := ht
  obtain ⟨v, hv⟩ := lastSegment_ok t
  have hid := lastSegment_idem t v hv
  refine ⟨v, ht.trans hv, lastSegment_no_slash t v hv, (lastSegment_trimmed t v hv).1,
    (lastSegment_trimmed t v hv).2, fun r h => ?_, fun r h => ?_, fun r h => ?_⟩ <;>
  simp only [CloudDiskFromV1, CloudDiskFromBeta, CloudDiskFromAlpha, GetPDType, h, hid]

/-- C18: the index expression `respType[len(respType)-1]` of `GetPDType` is
always in range: for every type reference (the empty string and strings made
only of `/` included) the split on `"/"` has at least one segment, so neither
the tail of `GetPDType` nor `GetPDType` on any view ever panics with an index
out of range. -/
theorem C18_GetPDType_index_in_bounds :
    (∀ t : String, 1 ≤ (strings.Split t "/").length ∧
      (strings.Split t "/").length - 1 < (strings.Split t "/").length ∧
      lastSegment t ≠ .error .indexOutOfRange) ∧
    (∀ d : Option CloudDisk, GetPDType d ≠ .error .indexOutOfRange) ∧
    strings.Split "" "/" = [""] ∧
    strings.Split "/" "/" = ["", ""] ∧
    strings.Split "///" "/" = ["", "", "", ""] := by
  have hlen : ∀ t : String, 1 ≤ (strings.Split t "/").length := by
    intro t
    rw [strings.Split_slash, List.length_map]
    exact List.length_pos.2 (strings.splitChars_ne_nil _ _ _)
  have hseg : ∀ t : String, lastSegment t ≠ .error .indexOutOfRange := by
    intro t h
    obtain ⟨v, hv⟩ := lastSegment_ok t
    rw [hv] at h
    exact Except.noConfusion h
  refine ⟨fun t => ⟨hlen t, by have := hlen t; omega, hseg t⟩, fun d => ?_,
    by decide, by decide, by decide⟩
  cases d with
  | none => decide
  | some d =>
    rcases GetPDType_cases d with ⟨_, _, _, h⟩ | ⟨r, _, h⟩ | ⟨r, _, _, h⟩ | ⟨r, _, _, _, h⟩
    · rw [h]
      decide
    · rw [h]
      exact hseg _
    · rw [h]
      exact hseg _
    · rw [h]
      exact hseg _
